import Mathlib

/-!
Shallow embedding of the PDF form-field utilities in
`packages/bubble-core/scripts` (discover_pdf_fields.py, get_checkbox_values.py,
pdf_to_markdown_images.py, fill_form_fields_fitz_v2.py, verify_pdf.py).

Numeric page coordinates are modelled as rationals; the external PDF engine
(PyMuPDF) is modelled as already-extracted data: a document is a list of pages,
a page is a list of widget records carrying exactly the attributes the scripts
read, and each duck-typed probe of an engine object is an `Attempt` value
recording whether the probe raised, was absent / yielded nothing, or returned a
result.  Fallible top-level document opening is an `Except Unit` value.
-/

namespace BubblePdf

/-- Lexicographic order on pairs, matching how Python compares the 2-tuples
used as sort keys in the scripts. -/
def lexLe {α β : Type} [LinearOrder α] [LinearOrder β] (p q : α × β) : Prop :=
  p.1 < q.1 ∨ (p.1 = q.1 ∧ p.2 ≤ q.2)

instance {α β : Type} [LinearOrder α] [LinearOrder β] :
    DecidableRel (lexLe (α := α) (β := β)) := fun p q =>
  inferInstanceAs (Decidable (p.1 < q.1 ∨ (p.1 = q.1 ∧ p.2 ≤ q.2)))

theorem lexLe_total {α β : Type} [LinearOrder α] [LinearOrder β] (p q : α × β) :
    lexLe p q ∨ lexLe q p := by
  rcases lt_trichotomy p.1 q.1 with h | h | h
  · exact Or.inl (Or.inl h)
  · rcases le_total p.2 q.2 with h2 | h2
    · exact Or.inl (Or.inr ⟨h, h2⟩)
    · exact Or.inr (Or.inr ⟨h.symm, h2⟩)
  · exact Or.inr (Or.inl h)

theorem lexLe_trans {α β : Type} [LinearOrder α] [LinearOrder β]
    {p q r : α × β} (hpq : lexLe p q) (hqr : lexLe q r) : lexLe p r := by
  rcases hpq with h1 | ⟨h1, h1'⟩
  · rcases hqr with h2 | ⟨h2, _⟩
    · exact Or.inl (h1.trans h2)
    · exact Or.inl (h2 ▸ h1)
  · rcases hqr with h2 | ⟨h2, h2'⟩
    · exact Or.inl (h1 ▸ h2)
    · exact Or.inr ⟨h1.trans h2, h1'.trans h2'⟩

theorem lexLe_refl {α β : Type} [LinearOrder α] [LinearOrder β] (p : α × β) :
    lexLe p p :=
  Or.inr ⟨rfl, le_refl _⟩

/-- Model of Python's built-in `round` on a rational number: round half to
even (banker's rounding), as used by `round(y / ROW_TOLERANCE)` in
`sort_fields_reading_order`. -/
def pyRound (q : ℚ) : ℤ :=
  if q - ⌊q⌋ < 1 / 2 then ⌊q⌋
  else if 1 / 2 < q - ⌊q⌋ then ⌊q⌋ + 1
  else if ⌊q⌋ % 2 = 0 then ⌊q⌋ else ⌊q⌋ + 1

theorem le_pyRound (q : ℚ) : q - 1 / 2 ≤ (pyRound q : ℚ) := by
  have h1 : ((⌊q⌋ : ℚ)) ≤ q := Int.floor_le q
  have h2 : q < (⌊q⌋ : ℚ) + 1 := Int.lt_floor_add_one q
  unfold pyRound
  split_ifs <;> push_cast <;> linarith

theorem pyRound_le (q : ℚ) : (pyRound q : ℚ) ≤ q + 1 / 2 := by
  have h1 : ((⌊q⌋ : ℚ)) ≤ q := Int.floor_le q
  have h2 : q < (⌊q⌋ : ℚ) + 1 := Int.lt_floor_add_one q
  unfold pyRound
  split_ifs <;> push_cast <;> linarith

theorem pyRound_nonneg {q : ℚ} (hq : 0 ≤ q) : 0 ≤ pyRound q := by
  have h := le_pyRound q
  have h1 : (-1 : ℤ) < pyRound q := by
    have : (-1 : ℚ) < (pyRound q : ℚ) := by linarith
    exact_mod_cast this
  omega

/-- One entry of the JSON array emitted by `discover_all_pdf_fields`: the
`field_data` dict built in discover_pdf_fields.py (lines 130-152), with `id`
assigned after sorting (lines 163-164). -/
structure FieldRec where
  page : ℕ
  name : String
  type : String
  field_type : String
  current_value : String
  choices : List String
  rect : List ℚ
  x : ℚ
  y : ℚ
  width : ℚ
  height : ℚ
  field_flags : ℤ
  label : String
  potential_labels : List String
  id : ℕ
deriving DecidableEq

/-- The snapped row bucket of a field:
`row = round(y / ROW_TOLERANCE) * ROW_TOLERANCE` with `ROW_TOLERANCE = 10`
(discover_pdf_fields.py line 26). -/
def rowOf (f : FieldRec) : ℚ :=
  (pyRound (f.y / 10) : ℚ) * 10

/-- The composite sort key `(row * -y, x)` returned by `get_sort_key`
(discover_pdf_fields.py line 31). -/
def fieldKey (f : FieldRec) : ℚ × ℚ :=
  (rowOf f * (-f.y), f.x)

/-- Comparison of two fields by their composite sort keys, as Python's
`sorted(fields, key=get_sort_key)` compares key tuples. -/
def keyLe (a b : FieldRec) : Prop :=
  lexLe (fieldKey a) (fieldKey b)

instance : DecidableRel keyLe := fun a b =>
  inferInstanceAs (Decidable (lexLe (fieldKey a) (fieldKey b)))

instance : IsTotal FieldRec keyLe :=
  ⟨fun a b => lexLe_total (fieldKey a) (fieldKey b)⟩

instance : IsTrans FieldRec keyLe :=
  ⟨fun _ _ _ hab hbc => lexLe_trans hab hbc⟩

/-- Model of `sort_fields_reading_order` (discover_pdf_fields.py lines 14-33):
a stable sort of the page's fields by the key `(row * -y, x)`.  Python's
`sorted` is stable; `List.insertionSort` places earlier input elements before
later key-equal ones, so it has the same stability property. -/
def sortFieldsReadingOrder (fields : List FieldRec) : List FieldRec :=
  List.insertionSort keyLe fields

/-- Outcome of a duck-typed probe of an engine object: the probe raised an
exception, or it was absent / its guard conditions failed (leaving the probed
variable unchanged), or it produced a value. -/
inductive Attempt (α : Type) where
  | raise : Attempt α
  | skip : Attempt α
  | result : α → Attempt α
deriving DecidableEq

/-- Raw checkbox appearance-state data as first assigned to the Python
variable `choices`: either a plain list of state names, or a mapping from key
to value (a value is a list of strings or, for the non-list values skipped by
the `isinstance(value_list, list)` guard, `none`). -/
inductive Raw where
  | rlist : List String → Raw
  | rdict : List (String × Option (List String)) → Raw
deriving DecidableEq

/-- Python truthiness test `not choices` of the raw value: an empty list and
an empty dict are falsy. -/
def rawEmpty : Raw → Bool
  | .rlist l => l.isEmpty
  | .rdict d => d.isEmpty

/-- One widget as the scripts see it through the engine: the attributes read
plus the outcome of each appearance-state probe.  Absent optional attributes
(`field_name`, `field_value`, `field_flags`) are `none`.  For
discover_pdf_fields.py, `s1` is the `button_states` probe (lines 81-82),
`s2` is the `_annot`-based normal-appearance probe (lines 85-94), and `s3`
is the `_get_widget()`-based probe inside the inner bare `try` (lines 97-106);
`raise` marks a probe that raised, `skip` one whose guards failed without
assigning `choices`. -/
structure Widget where
  field_name : Option String
  field_type_string : String
  field_value : Option String
  x0 : ℚ
  y0 : ℚ
  x1 : ℚ
  y1 : ℚ
  field_flags : Option ℤ
  s1 : Attempt Raw
  s2 : Attempt (List String)
  s3 : Attempt (List String)
deriving DecidableEq

/-- A page: its rectangle height and its widget list. -/
structure Page where
  height : ℚ
  widgets : List Widget
deriving DecidableEq

/-- A successfully opened document. -/
structure PDFDoc where
  pages : List Page
deriving DecidableEq

/-- The try/except structure of discover_pdf_fields.py lines 79-106 around
the three appearance-state strategies: strategies 1 and 2 run inside the
outer `try` (an exception escapes to the handler at line 108), strategy 2
runs only when `choices` is still falsy, and strategy 3 sits in an inner
bare `try` whose handler is `pass` (an exception there leaves `choices`
unchanged). -/
def resolveRawChoices (s1 : Attempt Raw) (s2 s3 : Attempt (List String)) :
    Except Unit Raw :=
  match s1 with
  | .raise => .error ()
  | .skip => afterStrat1 (.rlist []) s2 s3
  | .result r => afterStrat1 r s2 s3
where
  afterStrat1 (c1 : Raw) (s2 s3 : Attempt (List String)) : Except Unit Raw :=
    match (if rawEmpty c1 then
            match s2 with
            | .raise => Except.error ()
            | .skip => Except.ok c1
            | .result l => Except.ok (Raw.rlist l)
          else Except.ok c1 : Except Unit Raw) with
    | .error e => .error e
    | .ok c2 =>
      .ok (if rawEmpty c2 then
            match s3 with
            | .result l => Raw.rlist l
            | _ => c2
          else c2)

/-- The `except` handler at discover_pdf_fields.py lines 108-113: synthesize
choices from the current value.  Python's `if field_value and ...` treats the
empty string as falsy. -/
def fallbackChoices (fv : String) : List String :=
  if fv ≠ "" ∧ fv ≠ "Off" then ["Off", fv] else ["Off"]

/-- The accumulator `all_choices` built from a dict raw value
(discover_pdf_fields.py lines 117-120): the concatenation of its list-typed
values; non-list values are skipped. -/
def dictAll (d : List (String × Option (List String))) : List String :=
  d.foldl
    (fun acc kv => match kv.2 with
      | some vl => acc ++ vl
      | none => acc) []

/-- The flatten step at discover_pdf_fields.py lines 115-121: a dict value is
flattened by concatenating its list-typed values and passing them through
`list(set(...))`; a plain list passes through unchanged.  Python's set
iteration order is unspecified; it is modelled by `List.dedup`, which is
immaterial to every downstream use because the checkbox path sorts the result
and only its element set is observable. -/
def flattenRaw : Raw → List String
  | .rlist l => l
  | .rdict d => if dictAll d ≠ [] then (dictAll d).dedup else []

/-- The checkbox sort key `(str(x) != "Off", str(x))` from
discover_pdf_fields.py line 127, as a pair ordered lexicographically with
`false < true`. -/
def offKey (s : String) : Bool × String :=
  (if s = "Off" then false else true, s)

/-- Comparison of two checkbox values by the Off-first sort key. -/
def offLe (a b : String) : Prop :=
  lexLe (offKey a) (offKey b)

instance : DecidableRel offLe := fun a b =>
  inferInstanceAs (Decidable (lexLe (offKey a) (offKey b)))

instance : IsTotal String offLe :=
  ⟨fun a b => lexLe_total (offKey a) (offKey b)⟩

instance : IsTrans String offLe :=
  ⟨fun _ _ _ hab hbc => lexLe_trans hab hbc⟩

/-- The `sorted(choices, key=lambda x: (str(x) != "Off", str(x)))` call at
discover_pdf_fields.py lines 126-128. -/
def sortOff (l : List String) : List String :=
  List.insertionSort offLe l

/-- The normalization applied to a checkbox's raw choices
(discover_pdf_fields.py lines 115-128): flatten a dict, then sort Off-first
when the result is non-empty (`if field_type == "CheckBox" and choices:`). -/
def normalizeChoices (raw : Raw) : List String :=
  if flattenRaw raw = [] then flattenRaw raw else sortOff (flattenRaw raw)

/-- The complete `choices` computation for one widget in
`discover_all_pdf_fields` (lines 77-128): for a checkbox, run the strategy
chain, replace an escaped exception by the current-value fallback, then
normalize; for every other field type `choices` stays the empty list (the
flatten and sort steps never fire on it). -/
def discoverChoices (w : Widget) (fv : String) : List String :=
  if w.field_type_string = "CheckBox" then
    normalizeChoices
      (match resolveRawChoices w.s1 w.s2 w.s3 with
        | .error _ => .rlist (fallbackChoices fv)
        | .ok r => r)
  else []

/-- The body of the widget loop in `discover_all_pdf_fields` (lines 53-154):
widgets whose `field_name` is falsy (absent or empty) are skipped; otherwise a
field record is built with the top-left-converted y coordinate
`converted_y = page_height - rect.y1`, the annotation-type string, and the
resolved choices.  Python's `field_value if field_value else ""` maps an
absent value to the empty string.  The id is assigned later (it starts at 0
here). -/
def widgetField (pageIndex1 : ℕ) (pageHeight : ℚ) (w : Widget) :
    Option FieldRec :=
  if w.field_name.getD "" = "" then none
  else
    some
      { page := pageIndex1
        name := w.field_name.getD ""
        type :=
          if w.field_type_string = "CheckBox" then "/Btn"
          else if w.field_type_string = "Signature" then "/Sig"
          else "/Tx"
        field_type := w.field_type_string
        current_value := w.field_value.getD ""
        choices := discoverChoices w (w.field_value.getD "")
        rect := [w.x0, pageHeight - w.y1, w.x1,
          pageHeight - w.y1 + (w.y1 - w.y0)]
        x := w.x0
        y := pageHeight - w.y1
        width := w.x1 - w.x0
        height := w.y1 - w.y0
        field_flags := w.field_flags.getD 0
        label := ""
        potential_labels := []
        id := 0 }

/-- The `page_fields` list collected for one page (lines 51-154). -/
def pageWidgetFields (pageIndex1 : ℕ) (p : Page) : List FieldRec :=
  p.widgets.filterMap (widgetField pageIndex1 p.height)

/-- The target-page filter at lines 46-47: a page is processed when no target
page is given or when its 1-based index equals the target. -/
def tpMatch (tp : Option ℕ) (pageNum : ℕ) : Bool :=
  match tp with
  | none => true
  | some t => pageNum + 1 == t

/-- The page loop of `discover_all_pdf_fields` (lines 44-158): each processed
page contributes its fields sorted in reading order, in page order.
`pageNum` is the 0-based index of the first page of `pages`. -/
def processPages (pages : List Page) (pageNum : ℕ) (tp : Option ℕ) :
    List FieldRec :=
  match pages with
  | [] => []
  | p :: rest =>
    (if tpMatch tp pageNum then
      sortFieldsReadingOrder (pageWidgetFields (pageNum + 1) p)
    else []) ++ processPages rest (pageNum + 1) tp

/-- The id-assignment loop `for i, field in enumerate(all_fields, 1)`
(lines 163-164), generalized over the starting index. -/
def assignIdsFrom (n : ℕ) : List FieldRec → List FieldRec
  | [] => []
  | f :: fs => { f with id := n } :: assignIdsFrom (n + 1) fs

/-- Model of `discover_all_pdf_fields` (lines 36-170): a document that fails
to open yields the empty array (the handler at lines 168-170); otherwise the
processed pages' sorted fields are concatenated and numbered from 1. -/
def discoverAllPdfFields (openRes : Except Unit PDFDoc) (tp : Option ℕ) :
    List FieldRec :=
  match openRes with
  | .error _ => []
  | .ok doc => assignIdsFrom 1 (processPages doc.pages 0 tp)

/-- One rendered page as the conversion script obtains it from the engine
(pdf_to_markdown_images.py lines 43-53): pixmap width and height, the JPEG
byte count, and the base64 payload, all produced by the external engine. -/
structure PageImg where
  width : ℕ
  height : ℕ
  jpegLen : ℕ
  dataB64 : String
deriving DecidableEq

/-- A successfully opened document from the conversion script's viewpoint:
the sequence of renderable pages. -/
structure ImgDoc where
  pages : List PageImg
deriving DecidableEq

/-- One element of the JSON array emitted by `pdf_to_images_for_ai`
(lines 55-62). -/
structure ImageRec where
  page : ℕ
  format : String
  data : String
  width : ℕ
  height : ℕ
  size_kb : ℕ
deriving DecidableEq

/-- The record appended for 0-based page `n` (lines 55-62): the page number
is reported 1-based and `size_kb` is integer division of the JPEG length by
1024. -/
def mkImageRec (n : ℕ) (pd : PageImg) : ImageRec :=
  { page := n + 1
    format := "jpeg"
    data := pd.dataB64
    width := pd.width
    height := pd.height
    size_kb := pd.jpegLen / 1024 }

/-- The conversion loop (lines 38-66): a requested 0-based index at or past
the page count is skipped (`if page_num >= total_pages: continue`), every
other index contributes one record. -/
def convertPages (pgs : List PageImg) : List ℕ → List ImageRec
  | [] => []
  | n :: rest =>
    match pgs.get? n with
    | none => convertPages pgs rest
    | some pd => mkImageRec n pd :: convertPages pgs rest

/-- Model of `pdf_to_images_for_ai` (pdf_to_markdown_images.py lines 12-78):
open failure yields the empty array; a document over 100 pages is rejected
with the empty array before any page is touched (lines 23-26); otherwise the
requested pages (truncated to `maxPages`) or the first
`min(total, maxPages)` pages are converted.  Python's `if pages:` treats both
`None` and an empty list as "no explicit request". -/
def pdfToImagesForAI (openRes : Except Unit ImgDoc) (pages : Option (List ℕ))
    (maxPages : ℕ) : List ImageRec :=
  match openRes with
  | .error _ => []
  | .ok doc =>
    let total := doc.pages.length
    if total > 100 then []
    else
      let pageNumbers :=
        match pages with
        | some ps =>
          if ps.isEmpty then List.range (min total maxPages)
          else ps.take maxPages
        | none => List.range (min total maxPages)
      convertPages doc.pages pageNumbers

/-- The page-argument parsing in the conversion script's main block
(pdf_to_markdown_images.py lines 95-106): 1-based page numbers are kept only
when positive and converted to 0-based indices. -/
def parsePagesArg (req : List ℤ) : List ℕ :=
  (req.filter (fun p => 0 < p)).map (fun p => (p - 1).toNat)

/-- One checkbox widget as get_checkbox_values.py sees it:
`buttonStates` is the hasattr-guarded `button_states` probe (lines 33-34) and
`annotStates` the unguarded `_annot`-based probe (lines 37-43), which
overwrites the previous states whenever it yields a list, raises when an
attribute access fails, and skips when a guard condition fails. -/
structure CbWidget where
  field_name : Option String
  field_type_string : String
  field_value : Option String
  field_flags : Option ℤ
  buttonStates : Attempt (List String)
  annotStates : Attempt (List String)
deriving DecidableEq

/-- A page of the checkbox-values script. -/
structure CbPage where
  widgets : List CbWidget
deriving DecidableEq

/-- A successfully opened document of the checkbox-values script. -/
structure CbDoc where
  pages : List CbPage
deriving DecidableEq

/-- One value of the JSON object emitted by `get_checkbox_export_values`
(lines 48-53). -/
structure CheckboxVals where
  page : ℕ
  current_value : String
  possible_values : List String
  field_flags : ℤ
deriving DecidableEq

/-- The `try` body of get_checkbox_values.py lines 30-43: run the
`button_states` probe, then let the `_annot` probe overwrite its result; an
exception from either escapes to the handler at line 55. -/
def cbResolve (w : CbWidget) : Except Unit (List String) :=
  match w.buttonStates with
  | .raise => .error ()
  | .skip =>
    (match w.annotStates with
      | .raise => .error ()
      | .skip => .ok []
      | .result l => .ok l)
  | .result st =>
    (match w.annotStates with
      | .raise => .error ()
      | .skip => .ok st
      | .result l => .ok l)

/-- The entry stored for one checkbox (lines 46-62): the current value
defaults to "Off" when the engine reports none, and empty resolved states or
a caught exception both produce the placeholder `["Off", "Unknown"]`. -/
def cbEntry (pageIndex1 : ℕ) (w : CbWidget) : CheckboxVals :=
  let cv := if w.field_value.getD "" = "" then "Off" else w.field_value.getD ""
  match cbResolve w with
  | .error _ =>
    { page := pageIndex1
      current_value := cv
      possible_values := ["Off", "Unknown"]
      field_flags := w.field_flags.getD 0 }
  | .ok st =>
    { page := pageIndex1
      current_value := cv
      possible_values := if st.isEmpty then ["Off", "Unknown"] else st
      field_flags := w.field_flags.getD 0 }

/-- Assignment `d[k] = v` on a Python dict modelled as an association list:
an existing key keeps its insertion position and gets the new value, a new
key is appended. -/
def dictInsert {β : Type} (k : String) (v : β) :
    List (String × β) → List (String × β)
  | [] => [(k, v)]
  | (k', v') :: rest =>
    if k' = k then (k', v) :: rest else (k', v') :: dictInsert k v rest

/-- The widget loop of `get_checkbox_export_values` over one page
(lines 24-62): only named checkbox widgets contribute entries. -/
def cbPageEntries (pageIndex1 : ℕ) (ws : List CbWidget)
    (acc : List (String × CheckboxVals)) : List (String × CheckboxVals) :=
  match ws with
  | [] => acc
  | w :: rest =>
    let acc' :=
      match w.field_name with
      | none => acc
      | some nm =>
        if nm = "" then acc
        else if w.field_type_string = "CheckBox" then
          dictInsert nm (cbEntry pageIndex1 w) acc
        else acc
    cbPageEntries pageIndex1 rest acc'

/-- The page loop of `get_checkbox_export_values` (lines 20-62). -/
def cbPages (pages : List CbPage) (pageNum : ℕ)
    (acc : List (String × CheckboxVals)) : List (String × CheckboxVals) :=
  match pages with
  | [] => acc
  | p :: rest => cbPages rest (pageNum + 1) (cbPageEntries (pageNum + 1) p.widgets acc)

/-- Model of `get_checkbox_export_values` (get_checkbox_values.py
lines 12-69): open failure yields the empty JSON object (the handler at
lines 67-69). -/
def getCheckboxExportValues (openRes : Except Unit CbDoc) :
    List (String × CheckboxVals) :=
  match openRes with
  | .error _ => []
  | .ok doc => cbPages doc.pages 0 []

/-- The outcome of a successful run of the filling script's engine work: the
bytes returned by `pdf_document.tobytes()` after the (engine-side) widget
mutations of fill_form_fields_fitz_v2.py lines 22-74. -/
structure FillResult where
  outBytes : List ℕ
deriving DecidableEq

/-- Model of `fill_pdf_form_with_fitz_v2` (fill_form_fields_fitz_v2.py
lines 11-82): opening failure (or any other exception escaping the outer
`try`) yields `None`; otherwise the function returns the engine's
re-serialized bytes.  The widget-mutation loop acts only through engine
handles and its errors are caught by the inner handlers, so it is opaque
here. -/
def fillPdfFormWithFitzV2 (openRes : Except Unit FillResult) :
    Option (List ℕ) :=
  match openRes with
  | .error _ => none
  | .ok r => some r.outBytes

/-- The main block of the filling script (lines 126-148): when filling
returned `None` the original stdin bytes are written to stdout unchanged. -/
def fillMainOutput (pdfData : List ℕ) (openRes : Except Unit FillResult) :
    List ℕ :=
  match fillPdfFormWithFitzV2 openRes with
  | none => pdfData
  | some b => b

/-! Helper lemmas. -/

theorem filter_orderedInsert {α : Type} (r : α → α → Prop) [DecidableRel r]
    (p : α → Bool) (a : α) (h : ∀ b, p a = true → ¬ r a b → p b = false) :
    ∀ m : List α, (List.orderedInsert r a m).filter p =
      if p a then a :: m.filter p else m.filter p := by
  intro m
  induction m with
  | nil =>
    cases hpa : p a <;> simp [List.orderedInsert, hpa]
  | cons b m ih =>
    rw [List.orderedInsert]
    by_cases hr : r a b
    · rw [if_pos hr]
      cases hpa : p a <;> simp [List.filter_cons, hpa]
    · rw [if_neg hr]
      cases hpa : p a
      · cases hpb : p b <;> simp [List.filter_cons, hpa, hpb, ih]
      · have hpb : p b = false := h b hpa hr
        simp [List.filter_cons, hpa, hpb, ih]

theorem filter_insertionSort {α : Type} (r : α → α → Prop) [DecidableRel r]
    (p : α → Bool) (h : ∀ a b, p a = true → p b = true → r a b)
    (l : List α) : (List.insertionSort r l).filter p = l.filter p := by
  induction l with
  | nil => rfl
  | cons a l ih =>
    rw [List.insertionSort,
      filter_orderedInsert r p a
        (fun b hpa hr => by
          cases hpb : p b
          · rfl
          · exact absurd (h a b hpa hpb) hr),
      ih, List.filter_cons]

theorem rowOf_le (f : FieldRec) : rowOf f ≤ f.y + 5 := by
  have h := pyRound_le (f.y / 10)
  unfold rowOf
  linarith

theorem le_rowOf (f : FieldRec) : f.y - 5 ≤ rowOf f := by
  have h := le_pyRound (f.y / 10)
  unfold rowOf
  linarith

theorem pyRound_y_nonneg (f : FieldRec) (hy : 0 ≤ f.y) :
    0 ≤ pyRound (f.y / 10) :=
  pyRound_nonneg (by positivity)

theorem key_lt_of_row_lt {a b : FieldRec} (ha : 0 ≤ a.y) (_hb : 0 ≤ b.y)
    (hrow : rowOf a < rowOf b) : (fieldKey b).1 < (fieldKey a).1 := by
  have hxa : a.y ≤ rowOf a + 5 := by linarith [le_rowOf a]
  have hxb : rowOf b - 5 ≤ b.y := by linarith [rowOf_le b]
  have hRa : (0 : ℚ) ≤ (pyRound (a.y / 10) : ℚ) := by
    exact_mod_cast pyRound_y_nonneg a ha
  have hRab : (pyRound (a.y / 10) : ℚ) + 1 ≤ (pyRound (b.y / 10) : ℚ) := by
    have h10 : (pyRound (a.y / 10) : ℚ) * 10 < (pyRound (b.y / 10) : ℚ) * 10 :=
      hrow
    have hZ : pyRound (a.y / 10) < pyRound (b.y / 10) := by
      have : (pyRound (a.y / 10) : ℚ) < (pyRound (b.y / 10) : ℚ) := by linarith
      exact_mod_cast this
    have : pyRound (a.y / 10) + 1 ≤ pyRound (b.y / 10) := hZ
    exact_mod_cast this
  set x : ℚ := (pyRound (a.y / 10) : ℚ) with hx
  set z : ℚ := (pyRound (b.y / 10) : ℚ) with hz
  have hrowa : rowOf a = x * 10 := rfl
  have hrowb : rowOf b = z * 10 := rfl
  rw [hrowa] at hxa
  rw [hrowb] at hxb
  have h1 : x * a.y ≤ x * (x * 10 + 5) := mul_le_mul_of_nonneg_left hxa hRa
  have hz0 : (0 : ℚ) ≤ z := by linarith
  have h2 : z * (z * 10 - 5) ≤ z * b.y := mul_le_mul_of_nonneg_left hxb hz0
  have hcross : (z - x - 1) * (z + x) ≥ 0 :=
    mul_nonneg (by linarith) (by linarith)
  have h3 : x * (x * 10 + 5) < z * (z * 10 - 5) := by nlinarith
  show rowOf b * (-b.y) < rowOf a * (-a.y)
  rw [hrowa, hrowb]
  nlinarith

theorem x_le_of_keyLe {a b : FieldRec} (hrow : rowOf a = rowOf b)
    (hy : a.y = b.y) (hk : keyLe a b) : a.x ≤ b.x := by
  have h1 : (fieldKey a).1 = (fieldKey b).1 := by
    show rowOf a * (-a.y) = rowOf b * (-b.y)
    rw [hrow, hy]
  rcases hk with h | ⟨_, h⟩
  · exact absurd h1 (ne_of_lt h)
  · exact h

theorem keyLe_of_key_eq {a b : FieldRec} (h : fieldKey a = fieldKey b) :
    keyLe a b := by
  unfold keyLe
  rw [h]
  exact lexLe_refl _

/-- Sample field record used to exercise the reading-order sorter on
concrete page coordinates. -/
def mkF (qx qy : ℚ) : FieldRec :=
  { page := 1, name := "f", type := "/Tx", field_type := "Text",
    current_value := "", choices := [], rect := [], x := qx, y := qy,
    width := 1, height := 1, field_flags := 0, label := "",
    potential_labels := [], id := 0 }

/-! Claim theorems. -/

/-- C1, counterexample: the claim that within one snapped row the field with
smaller x precedes the other fails.  Fields at (x=100, y=14) and (x=5, y=6)
share snapped row 10, yet the sorter keeps the x=100 field first because the
key component row * -y is -140 for it and -60 for the x=5 field. -/
theorem sortFields_smaller_x_not_first :
    rowOf (mkF 100 14) = rowOf (mkF 5 6) ∧
    (mkF 5 6).x < (mkF 100 14).x ∧
    sortFieldsReadingOrder [mkF 100 14, mkF 5 6] = [mkF 100 14, mkF 5 6] := by
  with_unfolding_all decide

/-- C1, amended: for a field list whose y coordinates are nonnegative, the
sorter's output has weakly descending snapped rows (a strictly greater
snapped row always comes first), and among fields with equal snapped row AND
equal y the x coordinates are weakly ascending; x alone does not order fields
within a snapped row. -/
theorem sortFields_reading_order_amended (l : List FieldRec)
    (h : ∀ f ∈ l, 0 ≤ f.y) :
    (sortFieldsReadingOrder l).Pairwise
      (fun a b => rowOf b ≤ rowOf a ∧
        (rowOf a = rowOf b → a.y = b.y → a.x ≤ b.x)) := by
  have hs : List.Pairwise keyLe (sortFieldsReadingOrder l) :=
    List.sorted_insertionSort keyLe l
  refine hs.imp_of_mem ?_
  intro a b ha hb hab
  have ha' : a ∈ l := ((List.perm_insertionSort keyLe l).mem_iff).mp ha
  have hb' : b ∈ l := ((List.perm_insertionSort keyLe l).mem_iff).mp hb
  have hya := h a ha'
  have hyb := h b hb'
  have hab' : (fieldKey a).1 < (fieldKey b).1 ∨
      ((fieldKey a).1 = (fieldKey b).1 ∧ (fieldKey a).2 ≤ (fieldKey b).2) := hab
  constructor
  · by_contra hcon
    push_neg at hcon
    have hlt := key_lt_of_row_lt hya hyb hcon
    rcases hab' with h1 | ⟨h1, _⟩
    · exact absurd (h1.trans hlt) (lt_irrefl _)
    · rw [h1] at hlt
      exact absurd hlt (lt_irrefl _)
  · intro hrow hy
    exact x_le_of_keyLe hrow hy hab

/-- C1, witness: the amended theorem applied to a concrete two-field page. -/
theorem sortFields_reading_order_amended_witness :
    (∀ f ∈ [mkF 3 25, mkF 7 4], 0 ≤ f.y) ∧
    (sortFieldsReadingOrder [mkF 3 25, mkF 7 4]).Pairwise
      (fun a b => rowOf b ≤ rowOf a ∧
        (rowOf a = rowOf b → a.y = b.y → a.x ≤ b.x)) :=
  ⟨by with_unfolding_all decide,
    sortFields_reading_order_amended [mkF 3 25, mkF 7 4]
      (by with_unfolding_all decide)⟩

/-- C7, counterexample: two fields with identical snapped row and identical x
but different y are reordered: (x=5, y=6) and (x=5, y=14) both have snapped
row 10, but their key components row * -y are -60 and -140, so the sorter
swaps them. -/
theorem sortFields_same_row_x_reordered :
    rowOf (mkF 5 6) = rowOf (mkF 5 14) ∧
    (mkF 5 6).x = (mkF 5 14).x ∧
    mkF 5 6 ≠ mkF 5 14 ∧
    sortFieldsReadingOrder [mkF 5 6, mkF 5 14] = [mkF 5 14, mkF 5 6] := by
  with_unfolding_all decide

/-- C7, amended: fields with identical y AND identical x (hence identical
sort key) keep their relative input order: the subsequence of fields at any
fixed coordinate pair is unchanged by the sorter. -/
theorem sortFields_stable_equal_coords (y0 x0 : ℚ) (l : List FieldRec) :
    (sortFieldsReadingOrder l).filter (fun f => decide (f.y = y0 ∧ f.x = x0)) =
      l.filter (fun f => decide (f.y = y0 ∧ f.x = x0)) := by
  apply filter_insertionSort
  intro a b hpa hpb
  rw [decide_eq_true_eq] at hpa hpb
  apply keyLe_of_key_eq
  unfold fieldKey rowOf
  rw [hpa.1, hpa.2, hpb.1, hpb.2]

/-- A sorted choice list starting from a value other than "Off" cannot
contain "Off", because the key component (value != "Off") puts "Off" before
every other string. -/
theorem sorted_off_head {l : List String} (hs : List.Sorted offLe l)
    (hm : "Off" ∈ l) : l.head? = some "Off" := by
  cases l with
  | nil => cases hm
  | cons h t =>
    by_cases hh : h = "Off"
    · rw [hh]
      rfl
    · exfalso
      have hm' : "Off" ∈ t := by
        rcases List.mem_cons.mp hm with h1 | h1
        · exact absurd h1.symm hh
        · exact h1
      have hle : lexLe (offKey h) (offKey "Off") :=
        List.rel_of_sorted_cons hs _ hm'
      rcases hle with h1 | ⟨h1, _⟩
      · have h2 : (offKey h).1 = true := by simp [offKey, hh]
        have h3 : (offKey "Off").1 = false := by simp [offKey]
        rw [h2, h3] at h1
        exact absurd h1 (by decide)
      · simp [offKey, hh] at h1

/-- A strategy-1 outcome that leaves the Python variable `choices` falsy:
the accessor is absent / its guards fail, or it returns an empty list or
empty dict. -/
def strat1Empty (s : Attempt Raw) : Prop :=
  s = Attempt.skip ∨ ∃ r, s = Attempt.result r ∧ rawEmpty r = true

/-- A strategy-2 or strategy-3 outcome that leaves `choices` falsy: the
probe's guards fail or it yields the empty key list. -/
def stratListEmpty (s : Attempt (List String)) : Prop :=
  s = Attempt.skip ∨ s = Attempt.result []

theorem flattenRaw_of_empty {r : Raw} (h : rawEmpty r = true) :
    flattenRaw r = [] := by
  cases r with
  | rlist l =>
    cases l with
    | nil => rfl
    | cons a t => simp [rawEmpty] at h
  | rdict d =>
    cases d with
    | nil => rfl
    | cons a t => simp [rawEmpty] at h

theorem afterStrat1_all_empty {c1 : Raw} {s2 s3 : Attempt (List String)}
    (hc1 : rawEmpty c1 = true) (h2 : stratListEmpty s2)
    (h3 : stratListEmpty s3) :
    ∃ r, resolveRawChoices.afterStrat1 c1 s2 s3 = .ok r ∧
      rawEmpty r = true := by
  rcases h2 with h2 | h2 <;> rcases h3 with h3 | h3 <;> subst h2 <;> subst h3
  · exact ⟨c1, by simp [resolveRawChoices.afterStrat1, hc1], hc1⟩
  · exact ⟨.rlist [], by simp [resolveRawChoices.afterStrat1, hc1], rfl⟩
  · exact ⟨.rlist [], by simp [resolveRawChoices.afterStrat1, hc1], rfl⟩
  · exact ⟨.rlist [], by simp [resolveRawChoices.afterStrat1, hc1], rfl⟩

theorem resolveRaw_all_empty {s1 : Attempt Raw} {s2 s3 : Attempt (List String)}
    (h1 : strat1Empty s1) (h2 : stratListEmpty s2) (h3 : stratListEmpty s3) :
    ∃ r, resolveRawChoices s1 s2 s3 = .ok r ∧ rawEmpty r = true := by
  rcases h1 with h1 | ⟨r, h1, hre⟩ <;> subst h1
  · have h0 : rawEmpty (Raw.rlist []) = true := rfl
    simpa [resolveRawChoices] using afterStrat1_all_empty h0 h2 h3
  · simpa [resolveRawChoices] using afterStrat1_all_empty hre h2 h3

theorem resolveRaw_raises {s1 : Attempt Raw} {s2 s3 : Attempt (List String)}
    (h : s1 = Attempt.raise ∨ (strat1Empty s1 ∧ s2 = Attempt.raise)) :
    resolveRawChoices s1 s2 s3 = .error () := by
  rcases h with h | ⟨h1, h2⟩
  · subst h
    rfl
  · subst h2
    rcases h1 with h1 | ⟨r, h1, hre⟩ <;> subst h1
    · rfl
    · show resolveRawChoices.afterStrat1 r .raise s3 = .error ()
      simp [resolveRawChoices.afterStrat1, hre]

/-- Sample checkbox widget whose three appearance-state strategies complete
without raising but produce only empty results. -/
def cbEmptyStrats : Widget :=
  { field_name := some "c", field_type_string := "CheckBox",
    field_value := some "Yes", x0 := 0, y0 := 0, x1 := 1, y1 := 1,
    field_flags := none, s1 := .result (.rlist []), s2 := .result [],
    s3 := .result [] }

/-- Sample checkbox widget on which strategy 1 is absent and the strategy-2
probe raises, so the exception reaches the outer handler. -/
def cbStratTwoRaises : Widget :=
  { field_name := some "c", field_type_string := "CheckBox",
    field_value := some "Yes", x0 := 0, y0 := 0, x1 := 1, y1 := 1,
    field_flags := none, s1 := .skip, s2 := .raise, s3 := .skip }

/-- C2, counterexample: when strategies 1-3 all complete and yield empty
results, the current-value fallback does not fire (it lives in the exception
handler only) and the final choices are the empty sequence, not
["Off", "Yes"]. -/
theorem discoverChoices_empty_strategies_empty :
    discoverChoices cbEmptyStrats "Yes" = [] := by
  with_unfolding_all decide

/-- C2, amended: the fallback ["Off", currentValue] / ["Off"] is produced
exactly by the exception paths that reach the outer handler — strategy 1
raising, or strategy 1 absent / yielding an empty result and strategy 2
raising (strategy 3's exceptions are swallowed by its inner bare handler);
when strategies 1-3 all complete without raising and yield only empty
results (absent accessors and empty lists or dicts included), the resolver
returns the empty sequence. -/
theorem discoverChoices_fallback_amended (fv : String) (w w' : Widget)
    (hcb : w.field_type_string = "CheckBox")
    (hcb' : w'.field_type_string = "CheckBox") :
    (strat1Empty w.s1 → stratListEmpty w.s2 → stratListEmpty w.s3 →
      discoverChoices w fv = []) ∧
    (w'.s1 = Attempt.raise ∨ (strat1Empty w'.s1 ∧ w'.s2 = Attempt.raise) →
      discoverChoices w' fv =
        if fv = "" ∨ fv = "Off" then ["Off"] else ["Off", fv]) := by
  constructor
  · intro h1 h2 h3
    obtain ⟨r, hok, hre⟩ := resolveRaw_all_empty h1 h2 h3
    unfold discoverChoices
    rw [if_pos hcb, hok]
    show normalizeChoices r = []
    unfold normalizeChoices
    rw [if_pos (flattenRaw_of_empty hre)]
    exact flattenRaw_of_empty hre
  · intro h1
    have herr : resolveRawChoices w'.s1 w'.s2 w'.s3 = .error () :=
      resolveRaw_raises h1
    unfold discoverChoices
    rw [if_pos hcb', herr]
    show normalizeChoices (.rlist (fallbackChoices fv)) = _
    by_cases hfv : fv = "" ∨ fv = "Off"
    · rw [if_pos hfv]
      have hfb : fallbackChoices fv = ["Off"] := by
        unfold fallbackChoices
        rw [if_neg]
        rcases hfv with h | h <;> simp [h]
      rw [hfb]
      rfl
    · rw [if_neg hfv]
      push_neg at hfv
      have hfb : fallbackChoices fv = ["Off", fv] := by
        unfold fallbackChoices
        rw [if_pos hfv]
      rw [hfb]
      have hOffLe : offLe "Off" fv := by
        refine Or.inl ?_
        have h2 : (offKey fv).1 = true := by
          simp [offKey, hfv.2]
        have h1 : (offKey "Off").1 = false := by
          simp [offKey]
        rw [h1, h2]
        exact Bool.false_lt_true
      simp [normalizeChoices, flattenRaw, sortOff, List.insertionSort,
        List.orderedInsert, hOffLe]

/-- C2, witness: the amended theorem applied to the all-empty sample widget
and to the widget whose strategy-2 probe raises, with current value
"Yes". -/
theorem discoverChoices_fallback_amended_witness :
    discoverChoices cbEmptyStrats "Yes" = [] ∧
    discoverChoices cbStratTwoRaises "Yes" = ["Off", "Yes"] := by
  have h :=
    discoverChoices_fallback_amended "Yes" cbEmptyStrats cbStratTwoRaises
      rfl rfl
  refine ⟨h.1 (Or.inr ⟨Raw.rlist [], rfl, rfl⟩) (Or.inr rfl) (Or.inr rfl), ?_⟩
  rw [h.2 (Or.inr ⟨Or.inl rfl, rfl⟩)]
  with_unfolding_all decide

/-- Sample checkbox widget whose first strategy yields a list with a
duplicated export value. -/
def cbDupList : Widget :=
  { field_name := some "c", field_type_string := "CheckBox",
    field_value := some "Yes", x0 := 0, y0 := 0, x1 := 1, y1 := 1,
    field_flags := none, s1 := .result (.rlist ["Yes", "Yes"]),
    s2 := .skip, s3 := .skip }

/-- Sample widget of the checkbox-values script whose button-states probe
yields the unsorted list ["Yes", "Off"]. -/
def cbUnsorted : CbWidget :=
  { field_name := some "c", field_type_string := "CheckBox",
    field_value := some "Yes", field_flags := none,
    buttonStates := .result ["Yes", "Off"], annotStates := .skip }

/-- Sample widget of the checkbox-values script whose button-states probe
raises, sending the entry to the fallback branch. -/
def cbFailing : CbWidget :=
  { field_name := some "c", field_type_string := "CheckBox",
    field_value := none, field_flags := none,
    buttonStates := .raise, annotStates := .skip }

/-- C3, counterexample: both cited normalization sites violate the claim.
In the discovery utility, deduplication happens only on the dict-flatten
path, so strategy 1 returning the list ["Yes", "Yes"] yields final choices
["Yes", "Yes"] with a duplicate; in the checkbox-values utility no
normalization runs at all, so button states ["Yes", "Off"] are emitted
verbatim with "Off" present but not first. -/
theorem discoverChoices_duplicates_preserved :
    (discoverChoices cbDupList "Yes" = ["Yes", "Yes"] ∧
      ¬ (discoverChoices cbDupList "Yes").Nodup) ∧
    ((cbEntry 1 cbUnsorted).possible_values = ["Yes", "Off"] ∧
      "Off" ∈ (cbEntry 1 cbUnsorted).possible_values ∧
      ((cbEntry 1 cbUnsorted).possible_values).head? ≠ some "Off") := by
  with_unfolding_all decide

/-- C3, amended: in the field-discovery utility, whatever raw value set
reaches the normalization step, the final sequence is weakly sorted by the
key (value != "Off", value), so "Off" is its first element whenever present;
it is duplicate-free when the raw set was a mapping-of-lists (the only path
that deduplicates), while duplicates in a list-shaped raw set are preserved.
The checkbox-values utility applies no normalization: it emits the resolved
appearance states verbatim, or the placeholder ["Off", "Unknown"] when they
are empty or resolution raised, so neither the "Off"-first ordering nor
deduplication holds for its output. -/
theorem normalizeChoices_off_first_sorted (raw : Raw) :
    (List.Sorted offLe (normalizeChoices raw) ∧
      ("Off" ∈ normalizeChoices raw →
        (normalizeChoices raw).head? = some "Off") ∧
      (∀ d, raw = Raw.rdict d → (normalizeChoices raw).Nodup)) ∧
    ((∀ (k : ℕ) (w : CbWidget) (st : List String), cbResolve w = .ok st →
        (cbEntry k w).possible_values =
          if st.isEmpty then ["Off", "Unknown"] else st) ∧
      (∀ (k : ℕ) (w : CbWidget), cbResolve w = .error () →
        (cbEntry k w).possible_values = ["Off", "Unknown"])) := by
  have hsorted : List.Sorted offLe (normalizeChoices raw) := by
    unfold normalizeChoices
    split_ifs with hf
    · rw [hf]
      exact List.sorted_nil
    · exact List.sorted_insertionSort offLe _
  refine ⟨⟨hsorted, ?_, ?_⟩, ?_, ?_⟩
  · intro hmem
    exact sorted_off_head hsorted hmem
  · intro d hd
    subst hd
    have hnod : (flattenRaw (Raw.rdict d)).Nodup := by
      show (if dictAll d ≠ [] then (dictAll d).dedup else []).Nodup
      split_ifs
      · exact List.nodup_dedup _
      · exact List.nodup_nil
    unfold normalizeChoices
    split_ifs with hf
    · rw [hf]
      exact List.nodup_nil
    · exact ((List.perm_insertionSort offLe _).nodup_iff).mpr hnod
  · intro k w st h
    unfold cbEntry
    rw [h]
  · intro k w h
    unfold cbEntry
    rw [h]

/-- C3, witness: the amended theorem applied to a concrete mapping-of-lists
raw value set containing "Off" and a duplicated "Yes", and to the two sample
widgets of the checkbox-values script. -/
theorem normalizeChoices_off_first_sorted_witness :
    List.Sorted offLe
      (normalizeChoices (Raw.rdict [("k", some ["Yes", "Off", "Yes"])])) ∧
    (normalizeChoices (Raw.rdict [("k", some ["Yes", "Off", "Yes"])])).head? =
      some "Off" ∧
    (normalizeChoices (Raw.rdict [("k", some ["Yes", "Off", "Yes"])])).Nodup ∧
    (cbEntry 1 cbUnsorted).possible_values = ["Yes", "Off"] ∧
    (cbEntry 1 cbFailing).possible_values = ["Off", "Unknown"] := by
  have h := normalizeChoices_off_first_sorted
    (Raw.rdict [("k", some ["Yes", "Off", "Yes"])])
  refine ⟨h.1.1, h.1.2.1 (by with_unfolding_all decide), h.1.2.2 _ rfl,
    ?_, h.2.2 1 cbFailing rfl⟩
  rw [h.2.1 1 cbUnsorted ["Yes", "Off"] rfl]
  with_unfolding_all decide

/-- C8: the normalization step is idempotent on list-shaped input: applying
it to an already-normalized sequence returns that sequence unchanged (the
sort leaves a sorted list fixed and the empty case is a fixed point). -/
theorem normalizeChoices_idempotent (l : List String) :
    normalizeChoices (.rlist (normalizeChoices (.rlist l))) =
      normalizeChoices (.rlist l) := by
  by_cases hl : l = []
  · subst hl
    rfl
  · have h1 : normalizeChoices (.rlist l) = sortOff l := by
      unfold normalizeChoices flattenRaw
      rw [if_neg hl]
    rw [h1]
    have hlen : (sortOff l).length = l.length :=
      (List.perm_insertionSort offLe l).length_eq
    have hne : sortOff l ≠ [] := by
      intro hc
      rw [hc] at hlen
      exact hl (List.eq_nil_of_length_eq_zero hlen.symm)
    unfold normalizeChoices flattenRaw
    rw [if_neg hne]
    exact List.Sorted.insertionSort_eq (List.sorted_insertionSort offLe l)

theorem assignIdsFrom_length (n : ℕ) (l : List FieldRec) :
    (assignIdsFrom n l).length = l.length := by
  induction l generalizing n with
  | nil => rfl
  | cons f fs ih => simp [assignIdsFrom, ih]

theorem assignIdsFrom_map_id (n : ℕ) (l : List FieldRec) :
    (assignIdsFrom n l).map (fun f => f.id) = List.range' n l.length := by
  induction l generalizing n with
  | nil => rfl
  | cons f fs ih => simp [assignIdsFrom, ih, List.range'_succ]

/-- C4: the ids of the emitted fields are exactly the contiguous sequence
1..N read off along the final reading-order sequence, where N is the total
number of discovered fields across the processed pages. -/
theorem discover_ids_contiguous (openRes : Except Unit PDFDoc)
    (tp : Option ℕ) :
    (discoverAllPdfFields openRes tp).map (fun f => f.id) =
      List.range' 1 (discoverAllPdfFields openRes tp).length := by
  cases openRes with
  | error e => rfl
  | ok doc =>
    show (assignIdsFrom 1 (processPages doc.pages 0 tp)).map (fun f => f.id) =
      List.range' 1 (assignIdsFrom 1 (processPages doc.pages 0 tp)).length
    rw [assignIdsFrom_map_id, assignIdsFrom_length]

/-- C5: when opening the document fails, each utility produces its neutral
result: field discovery and image conversion the empty array, the checkbox
utility the empty object, and the filling utility the original unmodified
input bytes. -/
theorem open_failure_neutral_outputs (tp : Option ℕ)
    (pages : Option (List ℕ)) (mp : ℕ) (pdf : List ℕ) :
    discoverAllPdfFields (.error ()) tp = [] ∧
    getCheckboxExportValues (.error ()) = [] ∧
    pdfToImagesForAI (.error ()) pages mp = [] ∧
    fillMainOutput pdf (.error ()) = pdf :=
  ⟨rfl, rfl, rfl, rfl⟩

/-- C6: a document whose page count exceeds the 100-page ceiling yields an
empty conversion result, whatever pages were requested and whatever the
per-run page cap is. -/
theorem images_page_ceiling (doc : ImgDoc) (pages : Option (List ℕ))
    (mp : ℕ) (h : 100 < doc.pages.length) :
    pdfToImagesForAI (.ok doc) pages mp = [] := by
  show (if doc.pages.length > 100 then [] else _) = []
  rw [if_pos h]

/-- Sample rendered page for exercising the conversion model. -/
def imgPageDummy : PageImg :=
  { width := 1, height := 1, jpegLen := 0, dataB64 := "" }

/-- A 150-page document, over the conversion ceiling. -/
def imgDoc150 : ImgDoc := ⟨List.replicate 150 imgPageDummy⟩

set_option maxRecDepth 4000 in
/-- C6, witness: the ceiling theorem applied to a 150-page document with an
explicit page request. -/
theorem images_page_ceiling_witness :
    pdfToImagesForAI (.ok imgDoc150) (some [0, 1]) 50 = [] :=
  images_page_ceiling imgDoc150 (some [0, 1]) 50 (by decide)

theorem convertPages_mem {pgs : List PageImg} {ns : List ℕ} {r : ImageRec}
    (h : r ∈ convertPages pgs ns) :
    ∃ n pd, pgs.get? n = some pd ∧ r = mkImageRec n pd := by
  induction ns with
  | nil => cases h
  | cons n rest ih =>
    rw [convertPages] at h
    cases hg : pgs.get? n with
    | none =>
      rw [hg] at h
      exact ih h
    | some pd =>
      rw [hg] at h
      rcases List.mem_cons.mp h with h1 | h1
      · exact ⟨n, pd, hg, h1⟩
      · exact ih h1

/-- C10: with an explicitly requested page list (1-based, possibly
containing non-positive or out-of-range entries), every emitted image record
reports a page number between 1 and the document's page count: non-positive
requests are dropped by the argument parser and too-large requests are
skipped by the conversion loop. -/
theorem images_pages_in_range (req : List ℤ) (doc : ImgDoc) (r : ImageRec)
    (h : r ∈ pdfToImagesForAI (.ok doc) (some (parsePagesArg req)) 50) :
    1 ≤ r.page ∧ r.page ≤ doc.pages.length := by
  have h' : r ∈ (if doc.pages.length > 100 then ([] : List ImageRec)
      else convertPages doc.pages
        (if (parsePagesArg req).isEmpty then
          List.range (min doc.pages.length 50)
        else List.take 50 (parsePagesArg req))) := h
  by_cases htot : doc.pages.length > 100
  · rw [if_pos htot] at h'
    cases h'
  · rw [if_neg htot] at h'
    obtain ⟨n, pd, hg, hr⟩ := convertPages_mem h'
    obtain ⟨hlt, -⟩ := List.get?_eq_some.mp hg
    subst hr
    exact ⟨Nat.succ_le_succ (Nat.zero_le n), Nat.succ_le_of_lt hlt⟩

/-- Sample rendered pages and the record emitted for the first of them. -/
def imgPageA : PageImg :=
  { width := 10, height := 20, jpegLen := 2048, dataB64 := "imA" }

def imgPageB : PageImg :=
  { width := 30, height := 40, jpegLen := 4096, dataB64 := "imB" }

def imgDoc2 : ImgDoc := ⟨[imgPageA, imgPageB]⟩

def imgRecA : ImageRec :=
  { page := 1, format := "jpeg", data := "imA", width := 10, height := 20,
    size_kb := 2 }

/-- C10, witness: the range theorem applied to the request [1, -3, 5] on a
two-page document; the parser drops -3, page 1 is converted and page 5 is
skipped. -/
theorem images_pages_in_range_witness :
    1 ≤ imgRecA.page ∧ imgRecA.page ≤ imgDoc2.pages.length :=
  images_pages_in_range [1, -3, 5] imgDoc2 imgRecA (by decide)

theorem assignIdsFrom_mem_name {f : FieldRec} :
    ∀ (n : ℕ) (l : List FieldRec), f ∈ assignIdsFrom n l →
      ∃ g ∈ l, f.name = g.name := by
  intro n l
  induction l generalizing n with
  | nil => intro h; cases h
  | cons g gs ih =>
    intro h
    rw [assignIdsFrom] at h
    rcases List.mem_cons.mp h with h1 | h1
    · exact ⟨g, List.mem_cons_self g gs, by rw [h1]⟩
    · obtain ⟨g', hg', hname⟩ := ih (n + 1) h1
      exact ⟨g', List.mem_cons_of_mem _ hg', hname⟩

theorem processPages_mem {f : FieldRec} :
    ∀ (pages : List Page) (n : ℕ) (tp : Option ℕ),
      f ∈ processPages pages n tp → ∃ k p, f ∈ pageWidgetFields k p := by
  intro pages
  induction pages with
  | nil => intro n tp h; cases h
  | cons p rest ih =>
    intro n tp h
    rw [processPages] at h
    rcases List.mem_append.mp h with h1 | h1
    · by_cases htp : tpMatch tp n = true
      · rw [if_pos htp] at h1
        exact ⟨n + 1, p, ((List.perm_insertionSort keyLe _).mem_iff).mp h1⟩
      · rw [if_neg htp] at h1
        cases h1
    · exact ih (n + 1) tp h1

theorem pageWidgetFields_name {f : FieldRec} (k : ℕ) (p : Page)
    (h : f ∈ pageWidgetFields k p) : f.name ≠ "" := by
  obtain ⟨w, _, hwf⟩ := List.mem_filterMap.mp h
  unfold widgetField at hwf
  by_cases hempty : w.field_name.getD "" = ""
  · rw [if_pos hempty] at hwf
    cases hwf
  · rw [if_neg hempty] at hwf
    have h2 := Option.some.inj hwf
    rw [← h2]
    exact hempty

/-- C9: every field record emitted by discovery has a non-empty name;
widgets whose field name is absent or empty are skipped entirely. -/
theorem discover_names_nonempty (openRes : Except Unit PDFDoc)
    (tp : Option ℕ) (f : FieldRec)
    (h : f ∈ discoverAllPdfFields openRes tp) : f.name ≠ "" := by
  cases openRes with
  | error e => cases h
  | ok doc =>
    have h' : f ∈ assignIdsFrom 1 (processPages doc.pages 0 tp) := h
    obtain ⟨g, hg, hname⟩ := assignIdsFrom_mem_name 1 _ h'
    obtain ⟨k, p, hf⟩ := processPages_mem doc.pages 0 tp hg
    rw [hname]
    exact pageWidgetFields_name k p hf

/-- Sample text widget and the single document built from it. -/
def textWidget : Widget :=
  { field_name := some "A", field_type_string := "Text", field_value := none,
    x0 := 0, y0 := 5, x1 := 10, y1 := 10, field_flags := none,
    s1 := .skip, s2 := .skip, s3 := .skip }

def oneFieldDoc : PDFDoc := ⟨[⟨100, [textWidget]⟩]⟩

/-- The record discovery emits for the sample document: the y coordinate is
the converted 100 - 10 = 90 and the id is 1. -/
def oneFieldRec : FieldRec :=
  { page := 1, name := "A", type := "/Tx", field_type := "Text",
    current_value := "", choices := [], rect := [0, 90, 10, 95], x := 0,
    y := 90, width := 10, height := 5, field_flags := 0, label := "",
    potential_labels := [], id := 1 }

/-- C9, witness: the non-empty-name theorem applied to the concrete
one-widget document. -/
theorem discover_names_nonempty_witness : oneFieldRec.name ≠ "" :=
  discover_names_nonempty (.ok oneFieldDoc) none oneFieldRec
    (by with_unfolding_all decide)

end BubblePdf
